import Mathlib

/-
  Verification of the photocopy degradation pipeline
  (src/photocopy_effect.py) against its design specification.

  The pipeline is shallow-embedded: pure fragments of the Python source
  become Lean functions over Nat / Int / Rat / Real; Python `int()`
  truncation of nonnegative floats is floor, Python `//` is floor
  division; float arithmetic is modelled by exact rational or real
  arithmetic (counterexamples are evaluated only at inputs where the
  float computation is exact).  Behaviour of the external libraries
  (Pillow, numpy, scipy) is modelled at the call sites where the source
  uses them, following their documented semantics.
-/

namespace PhotocopyEffect

/-- The per-run `color_mode` argument of apply_photocopy_effect
    (photocopy_effect.py line 9): either 'mono' or 'color'. -/
inductive ColorMode
  | mono
  | color
deriving DecidableEq, Repr

/-- The binding side of a page, derived from page parity
    (photocopy_effect.py line 20). -/
inductive BindingSide
  | left
  | right
deriving DecidableEq, Repr

/-- photocopy_effect.py lines 19-20:
    `is_odd_page = (page_number % 2) == 1`;
    `binding_side = 'left' if is_odd_page else 'right'`. -/
def bindingSide (pageNumber : Nat) : BindingSide :=
  if pageNumber % 2 = 1 then .left else .right

/-! ## Dimension flow of add_photocopy_effect (C1) -/

/-- Width and height of a PIL image. -/
structure Dims where
  width : Nat
  height : Nat
deriving DecidableEq, Repr

/-- PIL `Image.crop((l, t, r, b))` semantics: the result always has
    exactly the requested box size `(r - l, b - t)`; portions of the box
    falling outside the source canvas are padded.  (Pillow is not part
    of src/; this is its documented crop behaviour, used at
    photocopy_effect.py line 38.) -/
def cropDims (l t r b : Int) : Dims :=
  ⟨(r - l).toNat, (b - t).toNat⟩

/-- Dimension flow of add_photocopy_effect (photocopy_effect.py
    lines 10-46).  `(width, height)` is captured at entry (line 11).
    add_toner_smudges, simulate_page_curl (with round_corners),
    add_dark_edges, add_noise, add_scanlines and
    adjust_brightness_based_on_text all return an image of the same size
    as their input (they composite equal-sized layers, or resample a
    same-shape array).  `image.rotate(angle, expand=True)` (line 34)
    yields a library-determined expanded canvas, passed here as `rot`.
    The crop box (lines 36-38) is `(left, top, left + width, top + height)`
    with `left = (rot.width - width) // 2`, `top = (rot.height - height) // 2`
    (Python `//` is floor division, `Int.fdiv`). -/
def pipelineDims (d : Dims) (rot : Dims) : Dims :=
  let l : Int := Int.fdiv ((rot.width : Int) - (d.width : Int)) 2
  let t : Int := Int.fdiv ((rot.height : Int) - (d.height : Int)) 2
  cropDims l t (l + (d.width : Int)) (t + (d.height : Int))

/-! ## add_dark_edges: multiplicative mask composition (C4) -/

/-- Pillow's `MULDIV255` rounding, the per-pixel operation of
    `ImageChops.multiply(a, b)`: computes `round(a * b / 255)` as
    `t = a*b + 128; (t + (t >> 8)) >> 8` (libImaging). -/
def muldiv255 (a b : Nat) : Nat :=
  ((a * b + 128) + (a * b + 128) / 256) / 256

/-- `ImageChops.multiply` of two equal-sized single-channel images,
    pixelwise `muldiv255`. -/
def chopsMultiply (img msk : Nat → Nat → Nat) : Nat → Nat → Nat :=
  fun x y => muldiv255 (img x y) (msk x y)

/-- Mask combination structure of add_dark_edges (photocopy_effect.py
    lines 225-315).  The three masks — the blurred graduated edge
    (vignette) mask built at lines 230-239, the binding/deep shadow mask
    built at lines 242-297, and the page-thickness mask built at
    lines 300-309 — are all Pillow 'L' images (8-bit, values ≤ 255),
    abstracted here as arbitrary such grids; the image is combined with
    them only by `ImageChops.multiply` (lines 240, 312, 313). -/
def add_dark_edges (img vignette shadow thickness : Nat → Nat → Nat) :
    Nat → Nat → Nat :=
  chopsMultiply (chopsMultiply (chopsMultiply img vignette) shadow) thickness

/-! ## adjust_brightness_based_on_text (C6) -/

/-- photocopy_effect.py lines 359-362: `text_pixels = np.sum(arr < 128)`;
    `text_ratio = text_pixels / total_pixels`.  The flattened pixel
    array is modelled as a list of 8-bit values. -/
def textFraction (pixels : List Nat) : ℚ :=
  ((pixels.filter (fun p => p < 128)).length : ℚ) / (pixels.length : ℚ)

/-- photocopy_effect.py line 363:
    `brightness_factor = 1.0 - 0.03 * (text_ratio - 0.5)`. -/
def brightnessFactor (pixels : List Nat) : ℚ :=
  1 - (3 / 100) * (textFraction pixels - 1 / 2)

/-! ## Color-mode flow through the pipeline (C2, C10) -/

/-- PIL image modes reached by the pipeline. -/
inductive ImgMode
  | L
  | LA
  | RGB
  | RGBA
deriving DecidableEq, Repr

/-- `np.array(image).ndim` for each PIL mode: a single-channel 'L' image
    becomes a 2-D array, multi-channel images become 3-D arrays. -/
def ndim : ImgMode → Nat
  | .L => 2
  | .LA => 3
  | .RGB => 3
  | .RGBA => 3

/-- The arity precondition of `scipy.ndimage.map_coordinates(input,
    coordinates, ...)`: the number of coordinate arrays must equal
    `input.ndim`, otherwise scipy raises
    RuntimeError: invalid shape for coordinate array.
    Returns the ndim of the output array on success (the coordinate
    arrays here are 2-D grids, so the output is 2-D). -/
def mapCoordinatesCheck (inputNdim coordsLen : Nat) : Option Nat :=
  if coordsLen = inputNdim then some 2 else none

/-- `image.putalpha(mask)` (photocopy_effect.py line 221) attaches an
    alpha band: 'L' becomes 'LA', 'RGB' becomes 'RGBA'. -/
def putalphaMode : ImgMode → ImgMode
  | .L => .LA
  | .RGB => .RGBA
  | m => m

/-- Mode flow of round_corners (photocopy_effect.py lines 209-223):
    `image.putalpha(mask)` then `image.convert('L')` — the convert
    always yields a single-channel 'L' image whatever the input mode. -/
def roundCornersMode (m : ImgMode) : ImgMode :=
  match putalphaMode m with
  | _ => .L

/-- Mode flow of simulate_page_curl (photocopy_effect.py lines 149-207):
    `np.array(image)` (line 194) has `ndim m` dimensions;
    `map_coordinates` (line 200) is called with exactly 2 coordinate
    arrays (`[coords[0], coords[1]]`); on success `Image.fromarray` of
    the 2-D uint8 result is an 'L' image, then round_corners runs.
    `none` models the scipy RuntimeError. -/
def simulatePageCurlMode (m : ImgMode) : Option ImgMode :=
  match mapCoordinatesCheck (ndim m) 2 with
  | none => none
  | some _ => some (roundCornersMode .L)

/-- Mode flow of add_photocopy_effect (photocopy_effect.py lines 10-46):
    entry conversion to 'L' (mono) or 'RGB' (color) at lines 14-17;
    add_toner_smudges returns an image of the same mode (multiply or
    blend of equal-mode layers, lines 137/141, or the input unchanged);
    simulate_page_curl as above; add_dark_edges (multiply with 'L'
    masks), rotate, crop, add_noise, add_scanlines and the brightness
    enhancer all preserve the mode; finally a mono image is converted
    to 'RGB' at lines 44-45 before being returned. -/
def pipelineMode (cm : ColorMode) : Option ImgMode :=
  let m0 : ImgMode := match cm with
    | .mono => .L
    | .color => .RGB
  match simulatePageCurlMode m0 with
  | none => none
  | some m2 =>
      some (match cm with
        | .mono => .RGB
        | .color => m2)

/-! ## round_corners drops its own mask (C3) -/

/-- A single-channel page image. -/
structure GrayImage where
  width : Nat
  height : Nat
  pixel : Nat → Nat → Nat

/-- The corner mask drawn by round_corners (photocopy_effect.py
    lines 211-220): an 'L' image, 255 everywhere except the two
    quarter-discs of radius `0.03·width` punched out (fill 0) at the
    corners adjacent to the binding edge.  A `pieslice` over the box
    `[x0, y0, x0+2r, y0+2r]` spanning one quadrant fills the set of
    points of the corner quadrant within distance r of the box centre
    (rasterization idealized as the Euclidean disc; the mask is
    discarded by the code, so its exact rasterization is never
    observable).  All coordinates are scaled by 100 so that the radius
    `0.03·width` becomes the exact integer `3·width`. -/
def cornerMask (width height : Nat) (side : BindingSide) (x y : Nat) : Nat :=
  let r : ℤ := 3 * width
  let X : ℤ := 100 * x
  let Y : ℤ := 100 * y
  let W : ℤ := 100 * width
  let H : ℤ := 100 * height
  match side with
  | .left =>
      if (X ≤ r ∧ Y ≤ r ∧ (X - r) ^ 2 + (Y - r) ^ 2 ≤ r ^ 2)
        ∨ (X ≤ r ∧ H - r ≤ Y ∧ (X - r) ^ 2 + (Y - (H - r)) ^ 2 ≤ r ^ 2)
      then 0 else 255
  | .right =>
      if (W - r ≤ X ∧ Y ≤ r ∧ (X - (W - r)) ^ 2 + (Y - r) ^ 2 ≤ r ^ 2)
        ∨ (W - r ≤ X ∧ H - r ≤ Y
            ∧ (X - (W - r)) ^ 2 + (Y - (H - r)) ^ 2 ≤ r ^ 2)
      then 0 else 255

/-- `image.putalpha(mask)` on an 'L' image: the result is an 'LA' image
    whose L band is the original pixels and whose alpha band is the
    mask; the gray values are not changed. -/
def putalphaL (img : GrayImage) (msk : Nat → Nat → Nat) :
    GrayImage × (Nat → Nat → Nat) :=
  (img, msk)

/-- `image.convert('L')` on an 'LA' image: Pillow extracts the L band
    and discards the alpha band; it does NOT composite against any
    background. -/
def convertLofLA (img : GrayImage × (Nat → Nat → Nat)) : GrayImage :=
  img.1

/-- round_corners (photocopy_effect.py lines 209-223) on a mono page:
    build the corner mask, attach it as the alpha band (line 221), then
    convert back to 'L' (line 222). -/
def round_corners (img : GrayImage) (side : BindingSide) : GrayImage :=
  convertLofLA (putalphaL img (cornerMask img.width img.height side))

/-- The all-white 1000 × 1400 mono page of the spec's scenario. -/
def whitePage : GrayImage :=
  ⟨1000, 1400, fun _ _ => 255⟩

/-! ## Binding-side-dependent masks of add_dark_edges (C5) -/

/-- photocopy_effect.py line 227:
    `edge_width = int(min(width, height) * 0.02)`.  The float product is
    modelled as the exact `min·2/100`, floored. -/
def edge_width (w h : Nat) : Nat :=
  min w h * 2 / 100

/-- photocopy_effect.py line 302: `thickness_width = edge_width * 2`. -/
def thickness_width (w h : Nat) : Nat :=
  edge_width w h * 2

/-- Intensity of column x of the page-thickness shadow
    (photocopy_effect.py line 305):
    `int(245 + (x / thickness_width) * 10)`.  Modelled as the exact
    rational floored; for dyadic `tw` (e.g. tw = 32) the Python float
    computation is exact and agrees with this value. -/
def thicknessIntensity (tw x : Nat) : Nat :=
  245 + x * 10 / tw

/-- The page-thickness shadow mask, by column (photocopy_effect.py
    lines 300-309).  The mask starts all-255; for binding left the code
    draws vertical lines at columns `width - x` for `x ∈ [0, tw)` — the
    line for x = 0 lies at column `width`, outside the canvas, and is
    clipped by PIL — for binding right at columns `x`.  Every line spans
    the full height, so the mask is constant along y. -/
def thicknessMask (width tw : Nat) (side : BindingSide) (c : Nat) : Nat :=
  match side with
  | .left =>
      if width - tw < c ∧ c < width then thicknessIntensity tw (width - c)
      else 255
  | .right =>
      if c < tw then thicknessIntensity tw c else 255

/-- `Image.transpose(Image.FLIP_LEFT_RIGHT)` of a w-column image, by
    pixel (photocopy_effect.py lines 294-295). -/
def flipLR (w : Nat) (im : Nat → Nat → Nat) : Nat → Nat → Nat :=
  fun c y => im (w - 1 - c) y

/-- `base.paste(src, (x0, 0))` for a src of width sw spanning the full
    height: the pasted region replaces the base. -/
def pasteAt (base src : Nat → Nat → Nat) (x0 sw : Nat) : Nat → Nat → Nat :=
  fun c y => if x0 ≤ c ∧ c < x0 + sw then src (c - x0) y else base c y

/-- `base.paste(src, (x0, 0), msk)` with an 'L' mask: inside the pasted
    region Pillow blends base toward src by msk/255; the per-pixel
    blend operator is passed in as `blend` since only its pointwise
    application at (base, src, mask) values matters here. -/
def pasteMaskAt (blend : Nat → Nat → Nat → Nat) (base src msk : Nat → Nat → Nat)
    (x0 sw : Nat) : Nat → Nat → Nat :=
  fun c y =>
    if x0 ≤ c ∧ c < x0 + sw then blend (base c y) (src (c - x0) y) (msk (c - x0) y)
    else base c y

/-- The combined binding shadow mask (photocopy_effect.py lines
    243-297): a width × height 'L' image starting all-255; the gradient
    band `g` (width bw, built at lines 248-277 from the same random
    draws whichever the side) and the deep-shadow layer `d` (width dw,
    lines 280-287) are pasted at the binding edge: for binding left at
    x-offset 0 (lines 291-292, the deep layer masked by itself); for
    binding right both are first flipped left-right and pasted at
    offsets `width - bw` and `width - dw` (lines 294-297).  `blend` is
    Pillow's masked-paste blend operator. -/
def bindingShadow (width bw dw : Nat) (g d : Nat → Nat → Nat)
    (blend : Nat → Nat → Nat → Nat) (side : BindingSide) : Nat → Nat → Nat :=
  match side with
  | .left =>
      pasteMaskAt blend (pasteAt (fun _ _ => 255) g 0 bw) d d 0 dw
  | .right =>
      let g2 := flipLR bw g
      let d2 := flipLR dw d
      pasteMaskAt blend (pasteAt (fun _ _ => 255) g2 (width - bw) bw)
        d2 d2 (width - dw) dw

/-! ## Toner smudge fade-in (C8) -/

/-- photocopy_effect.py line 85 (mono branch):
    `fade_height = line_height * 0.7`. -/
def monoFadeHeight (lineHeight : Nat) : ℚ :=
  lineHeight * (7 / 10)

/-- photocopy_effect.py line 117 (color branch):
    `fade_height = line_height * 0.2`. -/
def colorFadeHeight (lineHeight : Nat) : ℚ :=
  lineHeight * (2 / 10)

/-- Pre-jitter intensity of row y_offset of a mono smudge line
    (photocopy_effect.py lines 86-93): during the fade-in
    (`y_offset < fade_height`) the intensity is
    `int(255 - (255 - base_intensity) * fade_factor)` with
    `fade_factor = y_offset / fade_height`; afterwards it is the full
    base intensity. -/
def monoLineIntensity (base lineHeight y : Nat) : ℤ :=
  if (y : ℚ) < monoFadeHeight lineHeight then
    ⌊(255 : ℚ) - (255 - (base : ℚ)) * ((y : ℚ) / monoFadeHeight lineHeight)⌋
  else base

/-- Pre-variation value of one channel (base value c of the chosen
    cast) of row y_offset of a color smudge line (photocopy_effect.py
    lines 117-123), same fade shape with the color fade height. -/
def colorLineChannel (c lineHeight y : Nat) : ℤ :=
  if (y : ℚ) < colorFadeHeight lineHeight then
    ⌊(255 : ℚ) - (255 - (c : ℚ)) * ((y : ℚ) / colorFadeHeight lineHeight)⌋
  else c

/-- Jitter and clamp applied to the faded value (photocopy_effect.py
    lines 95-96 and 126-127): add the drawn variation, clamp to
    [220, 255]. -/
def jitterClamp (i v : ℤ) : ℤ :=
  min 255 (max 220 (i + v))

/-! ## The page-curl displacement field (C7) -/

noncomputable section

/-- Value i of `np.linspace(0, 1, n)` (photocopy_effect.py
    lines 159-161): n evenly spaced points from 0 to 1 inclusive,
    i.e. `i / (n - 1)`; for n ≤ 1 the single point is 0. -/
def linspace01 (n i : Nat) : ℝ :=
  if n ≤ 1 then 0 else (i : ℝ) / ((n : ℝ) - 1)

/-- photocopy_effect.py line 154: `max_vertical_curl = height * 0.015`. -/
def maxVerticalCurl (height : Nat) : ℝ :=
  height * 0.015

/-- photocopy_effect.py line 155: `max_horizontal_curl = width * 0.008`. -/
def maxHorizontalCurl (width : Nat) : ℝ :=
  width * 0.008

/-- photocopy_effect.py line 156: `curl_frequency = 1.2`. -/
def curlFrequency : ℝ :=
  1.2

/-- photocopy_effect.py lines 163-167: distance of destination column x
    from the binding edge, `X` or `1 - X` where `X` is the linspace
    grid value of the column. -/
def curlDistance (width : Nat) (side : BindingSide) (x : Nat) : ℝ :=
  match side with
  | .left => linspace01 width x
  | .right => 1 - linspace01 width x

/-- photocopy_effect.py line 179: `edge_factor = np.exp(-distance * 3)`. -/
def edgeFactor (width : Nat) (side : BindingSide) (x : Nat) : ℝ :=
  Real.exp (-(curlDistance width side x) * 3)

/-- photocopy_effect.py lines 184-186: the subtle wave,
    `(height * 0.003) * sin(2π · Y · 4)`. -/
def waveTerm (height y : Nat) : ℝ :=
  (height * 0.003) * Real.sin (2 * Real.pi * linspace01 height y * 4)

/-- photocopy_effect.py lines 170-171, 180, 187, built exactly as the
    code does: `vertical_curl = A_v·sin(π·distance·f)`, then
    `*= (1 - Y·0.3)`, then `*= edge_factor`, then
    `+= wave * edge_factor`. -/
def verticalDisplacement (width height : Nat) (side : BindingSide)
    (x y : Nat) : ℝ :=
  maxVerticalCurl height
      * Real.sin (Real.pi * curlDistance width side x * curlFrequency)
      * (1 - linspace01 height y * 0.3)
      * edgeFactor width side x
    + waveTerm height y * edgeFactor width side x

/-- photocopy_effect.py lines 174-176, 181:
    `horizontal_curl = A_h·(1 - cos(π·distance·f))`, negated for the
    right binding side, then `*= edge_factor`. -/
def horizontalDisplacement (width : Nat) (side : BindingSide) (x : Nat) : ℝ :=
  (match side with
    | .left => maxHorizontalCurl width
        * (1 - Real.cos (Real.pi * curlDistance width side x * curlFrequency))
    | .right => -(maxHorizontalCurl width
        * (1 - Real.cos (Real.pi * curlDistance width side x * curlFrequency))))
    * edgeFactor width side x

/-- One resampling request of `map_coordinates` (photocopy_effect.py
    lines 194-200): which source coordinate each destination pixel
    samples, the spline order, and whether out-of-bounds coordinates
    use edge reflection (mode='reflect'). -/
structure ResampleCall where
  rowCoord : ℝ
  colCoord : ℝ
  order : Nat
  reflectMode : Bool

/-- photocopy_effect.py lines 195-200: `coords[0] = y + displacement_y`,
    `coords[1] = x + displacement_x`, `order=3`, `mode='reflect'`. -/
def curlResample (width height : Nat) (side : BindingSide) (x y : Nat) :
    ResampleCall :=
  ⟨(y : ℝ) + verticalDisplacement width height side x y,
   (x : ℝ) + horizontalDisplacement width side x, 3, true⟩

/-- The sign the displacement formulas carry per binding side: positive
    for Left, negative for Right (photocopy_effect.py lines 175-176). -/
def sideSign : BindingSide → ℝ
  | .left => 1
  | .right => -1

/-- The claim's distance field, as the spec states it:
    `x / width` (Left) or `1 - x / width` (Right). -/
def specDistance (width : Nat) (side : BindingSide) (x : Nat) : ℝ :=
  match side with
  | .left => (x : ℝ) / (width : ℝ)
  | .right => 1 - (x : ℝ) / (width : ℝ)

/-- The claim's horizontal displacement, as the spec states it:
    `A_h · (1 - cos(π·d·f)) · exp(-3·d)` with `d = specDistance`,
    sign-flipped for Right binding. -/
def specHorizontalDisplacement (width : Nat) (side : BindingSide)
    (x : Nat) : ℝ :=
  (match side with
    | .left => maxHorizontalCurl width
        * (1 - Real.cos (Real.pi * specDistance width side x * curlFrequency))
    | .right => -(maxHorizontalCurl width
        * (1 - Real.cos (Real.pi * specDistance width side x * curlFrequency))))
    * Real.exp (-(3 * specDistance width side x))

end

/-! ## Determinism of the pipeline under a fixed RNG stream (C9) -/

/-- The np.random stream: once seeded, the generator is a pure function
    from draw index to drawn value.  (numpy's MT19937 is outside src/;
    all that matters here is that a seeded stream is a function.) -/
def RngStream : Type :=
  Nat → ℚ

/-- A page image, as an abstract pixel grid. -/
def PageImage : Type :=
  Nat → Nat → ℚ

/-- One draw from the stream at position pos; returns the value and the
    advanced position. -/
def rngDraw (s : RngStream) (pos : Nat) : ℚ × Nat :=
  (s pos, pos + 1)

/-- k consecutive draws from the stream. -/
def rngBlock (s : RngStream) (pos k : Nat) : List ℚ × Nat :=
  ((List.range k).map (fun i => s (pos + i)), pos + k)

/-- Deterministic models of the raster internals the stages delegate to
    the imaging libraries (Pillow drawing/blur/compositing, scipy
    resampling, numpy array ops).  Each field is a pure function of its
    inputs; fields that consume data-dependent numbers of draws (the
    smudge line loop, the speck loop, the scanline cluster loop) take
    the stream and position and return the advanced position. -/
structure RasterLib where
  smudgeLines : ColorMode → RngStream → Nat → PageImage → PageImage × Nat
  curlWarp : BindingSide → PageImage → PageImage
  edgeMasks : List ℚ → BindingSide → PageImage → PageImage
  rotateCrop : ℚ → Nat → Nat → PageImage → PageImage
  noiseSpecks : RngStream → Nat → PageImage → PageImage × Nat
  scanClusters : RngStream → Nat → PageImage → PageImage × Nat
  brightness : PageImage → PageImage

/-- add_toner_smudges RNG branch (photocopy_effect.py lines 60-63, 146):
    draw one uniform value; with probability 0.1 draw and render the
    smudge band (lines 66-143), otherwise return the image unchanged. -/
def tonerSmudgesRun (L : RasterLib) (cm : ColorMode) (s : RngStream)
    (pos : Nat) (img : PageImage) : PageImage × Nat :=
  let d := rngDraw s pos
  if d.1 < 1 / 10 then L.smudgeLines cm s d.2 img
  else (img, d.2)

/-- add_dark_edges RNG use (photocopy_effect.py lines 267-274): exactly
    30 binding-texture band draws; all other mask construction is
    deterministic. -/
def darkEdgesRun (L : RasterLib) (side : BindingSide) (s : RngStream)
    (pos : Nat) (img : PageImage) : PageImage × Nat :=
  let b := rngBlock s pos 30
  (L.edgeMasks b.1 side img, b.2)

/-- Rotation/crop stage (photocopy_effect.py lines 28-38): one uniform
    angle draw, then the deterministic rotate-expand-median-fill-crop. -/
def rotateCropRun (L : RasterLib) (s : RngStream) (pos : Nat)
    (w h : Nat) (img : PageImage) : PageImage × Nat :=
  let d := rngDraw s pos
  (L.rotateCrop d.1 w h img, d.2)

/-- add_scanlines RNG branch (photocopy_effect.py lines 335-336): draw
    one uniform value; if it exceeds 0.2 the image passes through
    unchanged, otherwise the cluster loop consumes further draws. -/
def scanlinesRun (L : RasterLib) (s : RngStream) (pos : Nat)
    (img : PageImage) : PageImage × Nat :=
  let d := rngDraw s pos
  if 1 / 5 < d.1 then (img, d.2) else L.scanClusters s d.2 img

/-- The full per-page pipeline of add_photocopy_effect
    (photocopy_effect.py lines 10-46) with the single RNG stream
    threaded through the stages in their fixed call order:
    smudge → curl (no draws) → dark edges → rotate/crop → noise/specks
    → scanlines → brightness (no draws). -/
def addPhotocopyEffectRun (L : RasterLib) (cm : ColorMode) (s : RngStream)
    (img : PageImage) (w h pageNumber : Nat) : PageImage × Nat :=
  let side := bindingSide pageNumber
  let r1 := tonerSmudgesRun L cm s 0 img
  let i2 := L.curlWarp side r1.1
  let r3 := darkEdgesRun L side s r1.2 i2
  let r4 := rotateCropRun L s r3.2 w h r3.1
  let r5 := L.noiseSpecks s r4.2 r4.1
  let r6 := scanlinesRun L s r5.2 r5.1
  (L.brightness r6.1, r6.2)

/-- A concrete RasterLib used to instantiate the determinism theorem. -/
def constRaster : RasterLib :=
  ⟨fun _ _ p i => (i, p), fun _ i => i, fun _ _ i => i, fun _ _ _ i => i,
   fun _ p i => (i, p), fun _ p i => (i, p), fun i => i⟩

/-- The all-zero RNG stream, standing in for one fixed seeded stream. -/
def zeroStream : RngStream :=
  fun _ => 0

/-! ## Theorems for C1, C4, C6 -/

/-- `muldiv255 a b = round(a*b/255)` never exceeds `a` when `b` is an
    8-bit mask value. -/
theorem muldiv255_le (a b : Nat) (hb : b ≤ 255) : muldiv255 a b ≤ a := by
  unfold muldiv255
  have h : a * b ≤ 255 * a := by
    calc a * b ≤ a * 255 := Nat.mul_le_mul_left a hb
    _ = 255 * a := Nat.mul_comm a 255
  omega

/-- C1 (Dimension invariance): for every input image with positive
    dimensions, whatever expanded canvas size the rotation produces, the
    image returned by add_photocopy_effect has exactly the width and
    height captured at pipeline entry, because the crop box is anchored
    back to the original `(width, height)`. -/
theorem dimension_invariance (d : Dims) (rot : Dims)
    (hw : 0 < d.width) (hh : 0 < d.height) :
    pipelineDims d rot = d := by
  unfold pipelineDims cropDims
  cases d with
  | mk w h =>
    simp only
    congr 1 <;> omega

/-- Witness for C1 at a concrete input: a 1000 × 1400 page whose
    rotation expands the canvas to 1013 × 1410. -/
theorem dimension_invariance_witness :
    0 < (1000 : Nat) ∧ 0 < (1400 : Nat) ∧
    pipelineDims ⟨1000, 1400⟩ ⟨1013, 1410⟩ = ⟨1000, 1400⟩ :=
  ⟨by decide, by decide,
    dimension_invariance ⟨1000, 1400⟩ ⟨1013, 1410⟩ (by decide) (by decide)⟩

/-- C4 (Brightness bound of the shadow stage): every pixel of the image
    returned by add_dark_edges is at most the corresponding pixel of its
    input, for every 8-bit vignette, shadow and thickness mask, because
    the masks are combined with the image only by per-pixel
    multiplication (ImageChops.multiply). -/
theorem dark_edges_brightness_bound
    (img vignette shadow thickness : Nat → Nat → Nat)
    (hv : ∀ x y, vignette x y ≤ 255)
    (hs : ∀ x y, shadow x y ≤ 255)
    (ht : ∀ x y, thickness x y ≤ 255)
    (x y : Nat) :
    add_dark_edges img vignette shadow thickness x y ≤ img x y := by
  unfold add_dark_edges chopsMultiply
  calc muldiv255 (muldiv255 (muldiv255 (img x y) (vignette x y)) (shadow x y))
        (thickness x y)
      ≤ muldiv255 (muldiv255 (img x y) (vignette x y)) (shadow x y) :=
        muldiv255_le _ _ (ht x y)
    _ ≤ muldiv255 (img x y) (vignette x y) := muldiv255_le _ _ (hs x y)
    _ ≤ img x y := muldiv255_le _ _ (hv x y)

/-- Witness for C4 at a concrete input: a constant-200 image under
    constant masks 250, 100, 240, at pixel (3, 5). -/
theorem dark_edges_brightness_bound_witness :
    add_dark_edges (fun _ _ => 200) (fun _ _ => 250) (fun _ _ => 100)
      (fun _ _ => 240) 3 5 ≤ 200 :=
  dark_edges_brightness_bound (fun _ _ => 200) (fun _ _ => 250)
    (fun _ _ => 100) (fun _ _ => 240)
    (fun x y => by show (250 : Nat) ≤ 255; decide)
    (fun x y => by show (100 : Nat) ≤ 255; decide)
    (fun x y => by show (240 : Nat) ≤ 255; decide) 3 5

/-- C6 (Brightness normalizer): the stage scales brightness by exactly
    `1 − 0.03·(textFraction − 0.5)` where textFraction is the fraction
    of pixels strictly below 128; a page with fraction 0.9 is darkened
    (factor < 1) and a page with fraction 0.1 is lightened (factor > 1). -/
theorem brightness_normalizer (pixels : List Nat) :
    brightnessFactor pixels = 1 - (3 / 100) * (textFraction pixels - 1 / 2)
    ∧ (textFraction pixels = 9 / 10 → brightnessFactor pixels < 1)
    ∧ (textFraction pixels = 1 / 10 → 1 < brightnessFactor pixels) := by
  refine ⟨rfl, fun h => ?_, fun h => ?_⟩
  · rw [brightnessFactor, h]; norm_num
  · rw [brightnessFactor, h]; norm_num

/-- Witness for C6: a ten-pixel page with nine dark pixels has
    textFraction 0.9 and is darkened; one with one dark pixel has
    textFraction 0.1 and is lightened. -/
theorem brightness_normalizer_witness :
    textFraction [0, 0, 0, 0, 0, 0, 0, 0, 0, 200] = 9 / 10
    ∧ brightnessFactor [0, 0, 0, 0, 0, 0, 0, 0, 0, 200] < 1
    ∧ textFraction [0, 200, 200, 200, 200, 200, 200, 200, 200, 200] = 1 / 10
    ∧ 1 < brightnessFactor [0, 200, 200, 200, 200, 200, 200, 200, 200, 200] := by
  have h9 : textFraction [0, 0, 0, 0, 0, 0, 0, 0, 0, 200] = 9 / 10 := by
    norm_num [textFraction, List.filter]
  have h1 : textFraction [0, 200, 200, 200, 200, 200, 200, 200, 200, 200]
      = 1 / 10 := by
    norm_num [textFraction, List.filter]
  exact ⟨h9, (brightness_normalizer _).2.1 h9, h1,
    (brightness_normalizer _).2.2 h1⟩

/-- C2 (code bug): in 'color' mode the pipeline does not run to
    completion: simulate_page_curl passes the 3-D `(h, w, 3)` array of
    an RGB image to map_coordinates together with only 2 coordinate
    arrays, so scipy raises (modelled as `none`); in 'mono' mode the
    pipeline completes and returns an RGB image.  Moreover round_corners
    applied to an RGB image would collapse it to a single channel
    (`convert('L')` at line 222), contradicting "operates per-channel
    without collapsing". -/
theorem orchestrator_color_mode_fails :
    pipelineMode ColorMode.color = none
    ∧ pipelineMode ColorMode.mono = some ImgMode.RGB
    ∧ roundCornersMode ImgMode.RGB = ImgMode.L := by
  decide

/-- C3 (code bug): round_corners punches the quarter-disc mask out of
    the alpha band, but `convert('L')` then discards the alpha band
    without compositing, so the returned pixels are exactly the input
    pixels; in particular, for the all-white 1000 × 1400 page with
    binding Left, pixel (10, 20) lies inside the punched-out top-left
    quarter-disc (mask value 0), yet the output there is still 255, not
    strictly below 255 as claimed. -/
theorem round_corners_no_effect :
    (∀ (img : GrayImage) (side : BindingSide) (x y : Nat),
      (round_corners img side).pixel x y = img.pixel x y)
    ∧ cornerMask 1000 1400 BindingSide.left 10 20 = 0
    ∧ (round_corners whitePage BindingSide.left).pixel 10 20 = 255 := by
  refine ⟨fun img side x y => rfl, ?_, rfl⟩
  decide

/-- C10: whenever add_photocopy_effect returns, the returned image is in
    RGB mode: the mono path converts back to 'RGB' at lines 44-45 just
    before returning, and the color path never returns at all (the warp
    stage raises, see `orchestrator_color_mode_fails`). -/
theorem output_always_rgb (cm : ColorMode) (m : ImgMode)
    (h : pipelineMode cm = some m) : m = ImgMode.RGB := by
  cases cm <;> cases m <;> revert h <;> decide

/-- Witness for C10 at the mono mode, where the pipeline returns. -/
theorem output_always_rgb_witness :
    pipelineMode ColorMode.mono = some ImgMode.RGB
    ∧ ImgMode.RGB = ImgMode.RGB :=
  ⟨by decide, output_always_rgb ColorMode.mono ImgMode.RGB (by decide)⟩

/-- C5 counterexample: the binding-side-dependent masks are NOT all
    exact left-right mirrors.  For an 800 × 800 page
    (thickness_width = 32), the page-thickness shadow mask of an odd
    (Left) page at column 796 is 246, while the even (Right) page's
    mask at the mirrored column 800 − 1 − 796 = 3 is 245: the left
    variant draws its lines at columns `width - x`, one column off the
    mirror image.  The corner-rounding mask fails the same way: on a
    1000 × 1400 page the left mask at pixel (30, 30) is punched out
    (value 0) — it lies on the boundary of the disc centred at
    (30, 30) — but the right mask at the mirrored pixel
    (1000 − 1 − 30, 30) is 255, because the right pieslice box
    `[width−2r, 0, width, 2r]` is centred one column right of the
    mirror of the left box's centre. -/
theorem binding_mask_mirror_counterexample :
    bindingSide 1 = BindingSide.left
    ∧ bindingSide 2 = BindingSide.right
    ∧ thickness_width 800 800 = 32
    ∧ thicknessMask 800 (thickness_width 800 800) BindingSide.left 796
        ≠ thicknessMask 800 (thickness_width 800 800) BindingSide.right
            (800 - 1 - 796)
    ∧ cornerMask 1000 1400 BindingSide.left 30 30 = 0
    ∧ cornerMask 1000 1400 BindingSide.right (1000 - 1 - 30) 30 = 255 := by
  decide

/-- C5 amended: the binding side is Left iff the page number is odd;
    for the same configuration and random draws the combined
    binding-shadow mask (gradient band plus masked deep-shadow paste)
    of an odd page is the exact left-right mirror of the even page's;
    the page-thickness shadow mask and the corner-rounding mask are
    instead each the mirror displaced by one column: the left-page mask
    at column c equals the right-page mask at column `width - c` (not
    `width - 1 - c`). -/
theorem binding_side_parity_and_mirrors :
    (∀ n : Nat, bindingSide n = BindingSide.left ↔ n % 2 = 1)
    ∧ (∀ (width bw dw : Nat) (g d : Nat → Nat → Nat)
        (blend : Nat → Nat → Nat → Nat) (c y : Nat),
        dw ≤ bw → bw ≤ width → c < width →
        bindingShadow width bw dw g d blend BindingSide.left c y
          = bindingShadow width bw dw g d blend BindingSide.right
              (width - 1 - c) y)
    ∧ (∀ (width tw c : Nat), tw ≤ width → 0 < c → c < width →
        thicknessMask width tw BindingSide.left c
          = thicknessMask width tw BindingSide.right (width - c))
    ∧ (∀ (width height x y : Nat), x ≤ width →
        cornerMask width height BindingSide.left x y
          = cornerMask width height BindingSide.right (width - x) y) := by
  refine ⟨fun n => ?_, fun width bw dw g d blend c y hdb hbw hc => ?_,
    fun width tw c htw hc0 hcw => ?_, fun width height x y hxw => ?_⟩
  · unfold bindingSide
    split_ifs with h <;> simp [h]
  · simp only [bindingShadow, pasteMaskAt, pasteAt, flipLR]
    split_ifs <;>
      first
        | rfl
        | omega
        | (congr 1 <;> first | rfl | omega | (congr 1; omega))
  · simp only [thicknessMask]
    split_ifs <;> first | rfl | omega
  · have hcast : (((width - x : Nat)) : ℤ) = (width : ℤ) - (x : ℤ) :=
      Nat.cast_sub hxw
    simp only [cornerMask]
    refine if_congr ⟨fun h => ?_, fun h => ?_⟩ rfl rfl
    · rcases h with ⟨h1, h2, h3⟩ | ⟨h1, h2, h3⟩
      · exact Or.inl ⟨by omega, h2, by rw [hcast]; nlinarith [h3]⟩
      · exact Or.inr ⟨by omega, h2, by rw [hcast]; nlinarith [h3]⟩
    · rcases h with ⟨h1, h2, h3⟩ | ⟨h1, h2, h3⟩
      · refine Or.inl ⟨by omega, h2, ?_⟩
        rw [hcast] at h3
        nlinarith [h3]
      · refine Or.inr ⟨by omega, h2, ?_⟩
        rw [hcast] at h3
        nlinarith [h3]

/-- Witness for the amended C5 at concrete inputs: page 3 binds left;
    for an 800 × 800 page (bw = 64, dw = 19) the binding shadow at
    column 5 mirrors column 794; the thickness mask at column 796
    equals the right mask at column 4; the corner mask of a 1000 × 1400
    page at pixel (30, 30) equals the right mask at column 970. -/
theorem binding_side_parity_and_mirrors_witness :
    (bindingSide 3 = BindingSide.left ↔ 3 % 2 = 1)
    ∧ bindingShadow 800 64 19 (fun c y => c + y) (fun c _ => 2 * c)
        (fun a b m => (a * (255 - m) + b * m) / 255) BindingSide.left 5 0
        = bindingShadow 800 64 19 (fun c y => c + y) (fun c _ => 2 * c)
            (fun a b m => (a * (255 - m) + b * m) / 255) BindingSide.right
            (800 - 1 - 5) 0
    ∧ thicknessMask 800 32 BindingSide.left 796
        = thicknessMask 800 32 BindingSide.right (800 - 796)
    ∧ cornerMask 1000 1400 BindingSide.left 30 30
        = cornerMask 1000 1400 BindingSide.right (1000 - 30) 30 :=
  ⟨binding_side_parity_and_mirrors.1 3,
    binding_side_parity_and_mirrors.2.1 800 64 19 (fun c y => c + y)
      (fun c _ => 2 * c) (fun a b m => (a * (255 - m) + b * m) / 255) 5 0
      (by decide) (by decide) (by decide),
    binding_side_parity_and_mirrors.2.2.1 800 32 796 (by decide) (by decide)
      (by decide),
    binding_side_parity_and_mirrors.2.2.2 1000 1400 30 30 (by decide)⟩

/-- C9 (Determinism under a fixed seed): for every model of the library
    primitives, every input image, page number and configuration, two
    runs of the pipeline starting from an identical RNG stream produce
    identical output images (and identical final stream positions): all
    randomness is drawn from the single stream, consumed in the fixed
    stage order, and every other computation is a pure function of its
    inputs. -/
theorem determinism_under_fixed_seed (L : RasterLib) (cm : ColorMode)
    (s1 s2 : RngStream) (img : PageImage) (w h page : Nat)
    (hs : s1 = s2) :
    addPhotocopyEffectRun L cm s1 img w h page
      = addPhotocopyEffectRun L cm s2 img w h page := by
  rw [hs]

/-- Witness for C9: two runs from the all-zero stream on a white
    1000 × 1400 mono page 1 coincide. -/
theorem determinism_under_fixed_seed_witness :
    zeroStream = zeroStream
    ∧ addPhotocopyEffectRun constRaster ColorMode.mono zeroStream
        (fun _ _ => 255) 1000 1400 1
      = addPhotocopyEffectRun constRaster ColorMode.mono zeroStream
          (fun _ _ => 255) 1000 1400 1 :=
  ⟨rfl, determinism_under_fixed_seed constRaster ColorMode.mono zeroStream
    zeroStream (fun _ _ => 255) 1000 1400 1 rfl⟩

/-- C8 counterexample: the fade-in does NOT cover the first ~70% of the
    line height in both modes.  In color mode the fade height of a
    10-row line is 2 rows (20%), and at row 3 — only 30% of the height,
    where a 70% fade-in would still be interpolating — the channel
    value is already the full base value; the mono line at the same row
    is indeed still mid-fade. -/
theorem smudge_fade_counterexample :
    colorFadeHeight 10 = 2
    ∧ colorLineChannel 230 10 3 = 230
    ∧ monoFadeHeight 10 = 7
    ∧ monoLineIntensity 220 10 3 = 240
    ∧ (240 : ℤ) ≠ 220 := by
  have hc : colorFadeHeight 10 = 2 := by norm_num [colorFadeHeight]
  have hm : monoFadeHeight 10 = 7 := by norm_num [monoFadeHeight]
  refine ⟨hc, ?_, hm, ?_, by norm_num⟩
  · simp only [colorLineChannel, hc]
    norm_num
  · simp only [monoLineIntensity, hm]
    rw [if_pos (by norm_num)]
    have : (255 : ℚ) - (255 - (220 : Nat)) * ((3 : Nat) / 7) = 240 := by
      push_cast; ring
    rw [this]
    norm_num

/-- The fade shape common to both smudge branches is antitone in the
    row: for any fade height, the value
    `if y < fh then ⌊255 − (255 − base)·(y/fh)⌋ else base` does not
    increase as y grows, provided the base is an 8-bit value. -/
theorem fade_antitone (base y1 y2 : Nat) (fh : ℚ) (hb : base ≤ 255)
    (h12 : y1 ≤ y2) :
    (if (y2 : ℚ) < fh then
        ⌊(255 : ℚ) - (255 - (base : ℚ)) * ((y2 : ℚ) / fh)⌋
      else (base : ℤ))
    ≤ (if (y1 : ℚ) < fh then
        ⌊(255 : ℚ) - (255 - (base : ℚ)) * ((y1 : ℚ) / fh)⌋
      else (base : ℤ)) := by
  have hk : (0 : ℚ) ≤ 255 - (base : ℚ) := by
    have : (base : ℚ) ≤ 255 := by exact_mod_cast hb
    linarith
  by_cases h2 : (y2 : ℚ) < fh
  · have h1 : (y1 : ℚ) < fh := lt_of_le_of_lt (by exact_mod_cast h12) h2
    have hfh : (0 : ℚ) < fh := lt_of_le_of_lt (Nat.cast_nonneg y2) h2
    rw [if_pos h1, if_pos h2]
    apply Int.floor_le_floor
    have hdiv : (y1 : ℚ) / fh ≤ (y2 : ℚ) / fh := by
      rw [div_eq_mul_inv, div_eq_mul_inv]
      exact mul_le_mul_of_nonneg_right (by exact_mod_cast h12)
        (inv_nonneg.mpr hfh.le)
    nlinarith
  · rw [if_neg h2]
    by_cases h1 : (y1 : ℚ) < fh
    · rw [if_pos h1]
      apply Int.le_floor.mpr
      push_cast
      have hfh : (0 : ℚ) < fh := lt_of_le_of_lt (Nat.cast_nonneg y1) h1
      have hdiv : (y1 : ℚ) / fh ≤ 1 := by
        rw [div_le_one hfh]
        exact le_of_lt h1
      have hdnn : (0 : ℚ) ≤ (y1 : ℚ) / fh :=
        div_nonneg (Nat.cast_nonneg y1) hfh.le
      nlinarith
    · rw [if_neg h1]

/-- C8 amended: a mono smudge line fades in over the first 70% of its
    height and a color line over the first 20% — in each case the
    pre-jitter intensity starts at the background value 255, is
    non-increasing toward the base value through the fade, and equals
    the full base value from the fade height onward — and the band's
    start row, drawn from [height//8, height//2), lies in the upper
    half of the page. -/
theorem smudge_fade_behavior :
    (∀ base lh y : Nat, monoFadeHeight lh ≤ (y : ℚ) →
      monoLineIntensity base lh y = base)
    ∧ (∀ base lh : Nat, 0 < lh → monoLineIntensity base lh 0 = 255)
    ∧ (∀ base lh y1 y2 : Nat, base ≤ 255 → y1 ≤ y2 →
      monoLineIntensity base lh y2 ≤ monoLineIntensity base lh y1)
    ∧ (∀ c lh y : Nat, colorFadeHeight lh ≤ (y : ℚ) →
      colorLineChannel c lh y = c)
    ∧ (∀ c lh : Nat, 0 < lh → colorLineChannel c lh 0 = 255)
    ∧ (∀ c lh y1 y2 : Nat, c ≤ 255 → y1 ≤ y2 →
      colorLineChannel c lh y2 ≤ colorLineChannel c lh y1)
    ∧ (∀ height bandY : Nat, height / 8 ≤ bandY → bandY < height / 2 →
      2 * bandY < height) := by
  refine ⟨fun base lh y hy => ?_, fun base lh hlh => ?_,
    fun base lh y1 y2 hb h12 => ?_, fun c lh y hy => ?_,
    fun c lh hlh => ?_, fun c lh y1 y2 hb h12 => ?_,
    fun height bandY h1 h2 => ?_⟩
  · simp only [monoLineIntensity]
    rw [if_neg (not_lt.mpr hy)]
  · have hpos : (0 : ℚ) < monoFadeHeight lh := by
      have : (0 : ℚ) < (lh : ℚ) := by exact_mod_cast hlh
      unfold monoFadeHeight
      nlinarith
    simp only [monoLineIntensity]
    rw [if_pos (by simpa using hpos)]
    norm_num
  · simp only [monoLineIntensity]
    exact fade_antitone base y1 y2 (monoFadeHeight lh) hb h12
  · simp only [colorLineChannel]
    rw [if_neg (not_lt.mpr hy)]
  · have hpos : (0 : ℚ) < colorFadeHeight lh := by
      have : (0 : ℚ) < (lh : ℚ) := by exact_mod_cast hlh
      unfold colorFadeHeight
      nlinarith
    simp only [colorLineChannel]
    rw [if_pos (by simpa using hpos)]
    norm_num
  · simp only [colorLineChannel]
    exact fade_antitone c y1 y2 (colorFadeHeight lh) hb h12
  · omega

/-- Witness for the amended C8 at concrete inputs: a mono line of
    height 10 with base 220 and a color channel of base 230. -/
theorem smudge_fade_behavior_witness :
    (monoFadeHeight 10 ≤ (7 : ℚ) ∧ monoLineIntensity 220 10 7 = 220)
    ∧ monoLineIntensity 220 10 0 = 255
    ∧ monoLineIntensity 220 10 5 ≤ monoLineIntensity 220 10 2
    ∧ (colorFadeHeight 10 ≤ (2 : ℚ) ∧ colorLineChannel 230 10 2 = 230)
    ∧ colorLineChannel 230 10 0 = 255
    ∧ colorLineChannel 230 10 4 ≤ colorLineChannel 230 10 1
    ∧ 2 * 300 < 1400 :=
  ⟨⟨by norm_num [monoFadeHeight],
      smudge_fade_behavior.1 220 10 7 (by norm_num [monoFadeHeight])⟩,
    smudge_fade_behavior.2.1 220 10 (by norm_num),
    smudge_fade_behavior.2.2.1 220 10 2 5 (by norm_num) (by norm_num),
    ⟨by norm_num [colorFadeHeight],
      smudge_fade_behavior.2.2.2.1 230 10 2 (by norm_num [colorFadeHeight])⟩,
    smudge_fade_behavior.2.2.2.2.1 230 10 (by norm_num),
    smudge_fade_behavior.2.2.2.2.2.1 230 10 1 4 (by norm_num) (by norm_num),
    smudge_fade_behavior.2.2.2.2.2.2 1400 300 (by norm_num) (by norm_num)⟩

/-- C7 counterexample: the displacement field does NOT use distance
    `x/width`: the coordinate grid is `np.linspace(0, 1, width)`, whose
    value at column x is `x/(width−1)`.  For width 2, column 1, the
    code's horizontal displacement (distance 1) differs from the
    claim's formula (distance 1/2). -/
theorem warp_distance_counterexample :
    horizontalDisplacement 2 BindingSide.left 1
      ≠ specHorizontalDisplacement 2 BindingSide.left 1 := by
  have e1 : horizontalDisplacement 2 BindingSide.left 1
      = maxHorizontalCurl 2 * (1 - Real.cos (Real.pi * 1 * curlFrequency))
          * Real.exp (-(1 : ℝ) * 3) := by
    unfold horizontalDisplacement edgeFactor curlDistance linspace01
    norm_num
  have e2 : specHorizontalDisplacement 2 BindingSide.left 1
      = maxHorizontalCurl 2
          * (1 - Real.cos (Real.pi * (1 / 2) * curlFrequency))
          * Real.exp (-(3 * (1 / 2 : ℝ))) := by
    unfold specHorizontalDisplacement specDistance
    norm_num
  rw [e1, e2]
  apply ne_of_lt
  have hA : (0 : ℝ) < maxHorizontalCurl 2 := by
    unfold maxHorizontalCurl
    norm_num
  have hE1 : (0 : ℝ) < Real.exp (-(1 : ℝ) * 3) := Real.exp_pos _
  have hE2 : (0 : ℝ) < Real.exp (-(3 * (1 / 2 : ℝ))) := Real.exp_pos _
  have hcos1 : 1 - Real.cos (Real.pi * 1 * curlFrequency) ≤ 2 := by
    have := Real.neg_one_le_cos (Real.pi * 1 * curlFrequency)
    linarith
  have hcos1b : (0 : ℝ) ≤ 1 - Real.cos (Real.pi * 1 * curlFrequency) := by
    have := Real.cos_le_one (Real.pi * 1 * curlFrequency)
    linarith
  have hcos2 : (1 : ℝ) ≤ 1 - Real.cos (Real.pi * (1 / 2) * curlFrequency) := by
    have h0 : Real.cos (Real.pi * (1 / 2) * curlFrequency) ≤ 0 := by
      apply Real.cos_nonpos_of_pi_div_two_le_of_le
      · unfold curlFrequency
        nlinarith [Real.pi_pos]
      · unfold curlFrequency
        nlinarith [Real.pi_pos]
    linarith
  have hexp : 2 * Real.exp (-(1 : ℝ) * 3) < Real.exp (-(3 * (1 / 2 : ℝ))) := by
    have h15 : (2 : ℝ) < Real.exp (3 / 2) := by
      have := Real.add_one_lt_exp (by norm_num : (3 / 2 : ℝ) ≠ 0)
      linarith
    have hsplit : Real.exp (-(1 : ℝ) * 3)
        = Real.exp (-(3 * (1 / 2 : ℝ))) * Real.exp (-(3 / 2)) := by
      rw [← Real.exp_add]
      norm_num
    have hsmall : Real.exp (-(3 / 2 : ℝ)) * 2 < 1 := by
      have ha : (0 : ℝ) < Real.exp (3 / 2) := Real.exp_pos _
      rw [Real.exp_neg]
      rw [inv_mul_lt_iff₀ ha]
      linarith
    calc 2 * Real.exp (-(1 : ℝ) * 3)
        = Real.exp (-(3 * (1 / 2 : ℝ))) * (Real.exp (-(3 / 2 : ℝ)) * 2) := by
          rw [hsplit]; ring
      _ < Real.exp (-(3 * (1 / 2 : ℝ))) * 1 := by
          exact mul_lt_mul_of_pos_left hsmall hE2
      _ = Real.exp (-(3 * (1 / 2 : ℝ))) := by ring
  calc maxHorizontalCurl 2 * (1 - Real.cos (Real.pi * 1 * curlFrequency))
        * Real.exp (-(1 : ℝ) * 3)
      ≤ maxHorizontalCurl 2 * (2 * Real.exp (-(1 : ℝ) * 3)) := by
        nlinarith [mul_nonneg (mul_pos hA hE1).le
          (by linarith : (0 : ℝ) ≤ 2 - (1 - Real.cos (Real.pi * 1 * curlFrequency)))]
    _ < maxHorizontalCurl 2 * Real.exp (-(3 * (1 / 2 : ℝ))) :=
        mul_lt_mul_of_pos_left hexp hA
    _ ≤ maxHorizontalCurl 2
          * (1 - Real.cos (Real.pi * (1 / 2) * curlFrequency))
          * Real.exp (-(3 * (1 / 2 : ℝ))) := by
        nlinarith [mul_nonneg (mul_pos hA hE2).le
          (by linarith :
            (0 : ℝ) ≤ (1 - Real.cos (Real.pi * (1 / 2) * curlFrequency)) - 1)]

/-- C7 amended: with distance `x/(width−1)` — the linspace grid value —
    (Left; `1 − x/(width−1)` for Right) and `y_norm = y/(height−1)`,
    the vertical displacement equals
    `A_v·sin(π·d·f)·(1 − 0.3·y_norm)·exp(−3·d)` plus the sinusoidal
    ripple term times `exp(−3·d)`, the horizontal displacement equals
    `±A_h·(1 − cos(π·d·f))·exp(−3·d)` (negative for Right), and the
    source is resampled at `(x + dx, y + dy)` with spline order 3 and
    edge-reflection. -/
theorem warp_field_formulas (width height : Nat) (side : BindingSide)
    (x y : Nat) (hw : 2 ≤ width) (hh : 2 ≤ height) :
    curlDistance width BindingSide.left x = (x : ℝ) / ((width : ℝ) - 1)
    ∧ curlDistance width BindingSide.right x
        = 1 - (x : ℝ) / ((width : ℝ) - 1)
    ∧ verticalDisplacement width height side x y
        = maxVerticalCurl height
            * Real.sin (Real.pi * curlDistance width side x * curlFrequency)
            * (1 - 0.3 * ((y : ℝ) / ((height : ℝ) - 1)))
            * Real.exp (-(3 * curlDistance width side x))
          + waveTerm height y * Real.exp (-(3 * curlDistance width side x))
    ∧ horizontalDisplacement width side x
        = sideSign side
            * (maxHorizontalCurl width
              * (1 - Real.cos (Real.pi * curlDistance width side x
                  * curlFrequency))
              * Real.exp (-(3 * curlDistance width side x)))
    ∧ (curlResample width height side x y).rowCoord
        = (y : ℝ) + verticalDisplacement width height side x y
    ∧ (curlResample width height side x y).colCoord
        = (x : ℝ) + horizontalDisplacement width side x
    ∧ (curlResample width height side x y).order = 3
    ∧ (curlResample width height side x y).reflectMode = true := by
  have hexp : -(curlDistance width side x) * 3
      = -(3 * curlDistance width side x) := by ring
  refine ⟨?_, ?_, ?_, ?_, rfl, rfl, rfl, rfl⟩
  · unfold curlDistance linspace01
    rw [if_neg (by omega)]
  · unfold curlDistance linspace01
    rw [if_neg (by omega)]
  · unfold verticalDisplacement edgeFactor
    rw [hexp]
    unfold linspace01
    rw [if_neg (by omega : ¬ height ≤ 1)]
    ring
  · cases side
    · unfold horizontalDisplacement edgeFactor sideSign
      rw [hexp]
      ring
    · unfold horizontalDisplacement edgeFactor sideSign
      rw [hexp]
      ring

/-- Witness for the amended C7 on a 3 × 3 page at pixel (1, 1). -/
theorem warp_field_formulas_witness :
    2 ≤ 3
    ∧ (curlResample 3 3 BindingSide.left 1 1).order = 3
    ∧ (curlResample 3 3 BindingSide.left 1 1).reflectMode = true :=
  ⟨by norm_num,
    (warp_field_formulas 3 3 BindingSide.left 1 1 (by norm_num)
      (by norm_num)).2.2.2.2.2.2.1,
    (warp_field_formulas 3 3 BindingSide.left 1 1 (by norm_num)
      (by norm_num)).2.2.2.2.2.2.2⟩

end PhotocopyEffect
